import Mathlib

/-!
Verification of the lenslocked account service (models/users.go) and its
random-token package (rand) against the natural-language specification.

Go values are embedded as follows: uint becomes Nat, a Go string becomes a
Lean String (a list of characters standing for the bytes), a pointer that may
be nil becomes Option, and a Go error value becomes Option Err where none is
the nil error. The gorm database handle is embedded as a list of stored User
rows together with an optional injected fault standing for any persistence
failure the driver may report (connection loss and the like). The bcrypt
primitives are embedded as explicit function parameters, since their outcome
is what the service branches on.
-/

/-- The concrete error values that flow through the account service.
The first three are the sentinels declared in package models; the others are
the library errors the code compares against or passes through. -/
inductive Err where
  /-- models.ErrNotFound -/
  | errNotFound
  /-- models.ErrInvalidID -/
  | errInvalidID
  /-- models.ErrInvalidPassword -/
  | errInvalidPassword
  /-- the ad-hoc error created inside ByID for a non-positive id -/
  | invalidIDAdhoc
  /-- gorm.ErrRecordNotFound -/
  | gormRecordNotFound
  /-- bcrypt.ErrMismatchedHashAndPassword -/
  | bcryptMismatch
  /-- a failure of the password-hashing primitive, tagged by a code -/
  | hashErr (code : Nat)
  /-- the unique-index violation the Postgres driver reports for a duplicate email -/
  | uniqueViolation
  /-- any other persistence-layer failure, tagged by a code -/
  | backend (code : Nat)
deriving DecidableEq

/-- The error kinds of the specification taxonomy (spec section 7). -/
inductive ErrKind where
  | invalidArgument
  | notFound
  | invalidCredentials
  | constraintViolation
  | hashingError
  | backendError
deriving DecidableEq

/-- Classification of concrete error values into the spec taxonomy. -/
def Err.kind : Err → ErrKind
  | .errNotFound => .notFound
  | .errInvalidID => .invalidArgument
  | .errInvalidPassword => .invalidCredentials
  | .invalidIDAdhoc => .invalidArgument
  | .gormRecordNotFound => .notFound
  | .bcryptMismatch => .invalidCredentials
  | .hashErr _ => .hashingError
  | .uniqueViolation => .constraintViolation
  | .backend _ => .backendError

/-- The User row of models/users.go: gorm.Model fields (ID and the
store-owned timestamps) plus Name, Email, the transient Password (gorm tag
minus, never stored) and the persisted PasswordHash. -/
structure User where
  ID : Nat := 0
  CreatedAt : Nat := 0
  UpdatedAt : Nat := 0
  Name : String := ""
  Email : String := ""
  Password : String := ""
  PasswordHash : String := ""
deriving DecidableEq

/-- The zero value of the User struct, as produced by var user User in Go. -/
def User.zero : User := {}

/-- The rows of the users table. -/
abbrev Store := List User

/-- Modelled from the spec: gorm db.First behind the models helper named
first, whose concrete implementation lives in the gorm library, not in this
repository. It yields the first row of the query result, gorm.ErrRecordNotFound
when the result is empty, or an injected backend fault; on failure the
destination record is left untouched, hence zero-valued. -/
def dbFirst (fault : Option Err) (rows : List User) : User × Option Err :=
  match fault with
  | some e => (User.zero, some e)
  | none =>
    match rows with
    | [] => (User.zero, some Err.gormRecordNotFound)
    | u :: _ => (u, none)

/-- The models helper first: runs db.First and translates
gorm.ErrRecordNotFound into models.ErrNotFound, passing any other error
through unchanged. -/
def first (fault : Option Err) (rows : List User) : User × Option Err :=
  let r := dbFirst fault rows
  match r.2 with
  | some e => if e = Err.gormRecordNotFound then (r.1, some Err.errNotFound) else (r.1, some e)
  | none => (r.1, none)

/-- userGorm.ByID: rejects a non-positive id with a fresh Invalid ID error
before any query; otherwise queries where id matches and returns nil on any
error path, the found row otherwise. -/
def userGorm.ByID (fault : Option Err) (st : Store) (id : Nat) : Option User × Option Err :=
  if id ≤ 0 then (none, some Err.invalidIDAdhoc)
  else
    let r := first fault (st.filter (fun v => v.ID == id))
    match r.2 with
    | some e => (none, some e)
    | none => (some r.1, none)

/-- userGorm.ByEmail: queries where email matches and returns the address of
its local user variable together with the error, so the record pointer is
never nil even on failure. -/
def userGorm.ByEmail (fault : Option Err) (st : Store) (email : String) :
    Option User × Option Err :=
  let r := first fault (st.filter (fun v => v.Email == email))
  (some r.1, r.2)

/-- The next primary-key value the modelled store assigns. -/
def nextID (st : Store) : Nat := (st.map User.ID).foldr max 0 + 1

/-- Modelled from the spec: the gorm/Postgres insert behind userGorm.Create,
whose concrete implementation lives in the gorm library and the database, not
in this repository. The User struct declares a unique index on Email, so
inserting a duplicate email surfaces the driver's distinguishable
unique-violation error; any other persistence failure is an injected fault
returned unchanged; on success the row is stored and the record comes back
with ID and the timestamps backfilled. -/
def dbCreate (fault : Option Err) (st : Store) (now : Nat) (u : User) :
    Store × User × Option Err :=
  match fault with
  | some e => (st, u, some e)
  | none =>
    if st.any (fun v => v.Email == u.Email) then
      (st, u, some Err.uniqueViolation)
    else
      let v := { u with ID := nextID st, CreatedAt := now, UpdatedAt := now }
      (st ++ [v], v, none)

/-- userGorm.Create: hashes user.Password with bcrypt.GenerateFromPassword
(embedded as the parameter gen), returns the hashing error if that fails, and
otherwise sets PasswordHash, clears Password and hands the record to the
database insert, returning its error unchanged. The returned User is the
state of the record the caller passed by pointer. -/
def userGorm.Create (gen : String → Except Err String) (fault : Option Err)
    (st : Store) (now : Nat) (user : User) : Store × User × Option Err :=
  match gen user.Password with
  | Except.error e => (st, user, some e)
  | Except.ok hashedBytes =>
    let user := { user with PasswordHash := hashedBytes, Password := "" }
    dbCreate fault st now user

/-- Modelled from the spec: gorm db.Save behind userGorm.Update, whose
concrete implementation lives in the gorm library, not in this repository.
With a non-zero primary key, Save issues an UPDATE of every field keyed by
the primary key; when that UPDATE matches no row, gorm v1.9 falls back to
FirstOrCreate and inserts the record under its given primary key, still with
a nil error. With a zero primary key it inserts under a fresh key. Any
injected backend fault is returned unchanged. -/
def dbSave (fault : Option Err) (st : Store) (now : Nat) (u : User) : Store × Option Err :=
  match fault with
  | some e => (st, some e)
  | none =>
    if u.ID = 0 then
      (st ++ [{ u with ID := nextID st, CreatedAt := now, UpdatedAt := now }], none)
    else
      if st.any (fun v => v.ID == u.ID) then
        (st.map (fun v => if v.ID = u.ID then { u with UpdatedAt := now } else v), none)
      else
        (st ++ [{ u with CreatedAt := now, UpdatedAt := now }], none)

/-- userGorm.Update: returns ug.db.Save(user).Error with no translation. -/
def userGorm.Update (fault : Option Err) (st : Store) (now : Nat) (user : User) :
    Store × Option Err :=
  dbSave fault st now user

/-- Modelled from the spec: gorm db.Delete behind userGorm.Delete, whose
concrete implementation lives in the gorm library, not in this repository.
It removes the rows matching the primary key; deleting a missing row is not
an error. Any injected backend fault is returned unchanged. -/
def dbDelete (fault : Option Err) (st : Store) (id : Nat) : Store × Option Err :=
  match fault with
  | some e => (st, some e)
  | none => (st.filter (fun v => v.ID != id), none)

/-- userGorm.Delete: rejects id zero with models.ErrInvalidID before touching
the database, and otherwise deletes by primary key. -/
def userGorm.Delete (fault : Option Err) (st : Store) (id : Nat) : Store × Option Err :=
  if id = 0 then (st, some Err.errInvalidID)
  else dbDelete fault st id

/-- UserService.Authenticate: looks the user up by email through the embedded
userGorm, returning any lookup error unchanged; then compares the stored hash
against the supplied password with bcrypt.CompareHashAndPassword (embedded as
the parameter cmp, applied hash first). A nil comparison yields the found
record; bcrypt.ErrMismatchedHashAndPassword yields models.ErrInvalidPassword;
any other comparison error is returned as is. -/
def UserService.Authenticate (cmp : String → String → Option Err) (fault : Option Err)
    (st : Store) (email password : String) : Option User × Option Err :=
  match userGorm.ByEmail fault st email with
  | (_, some e) => (none, some e)
  | (foundUser, none) =>
    let fu := foundUser.getD User.zero
    match cmp fu.PasswordHash password with
    | none => (some fu, none)
    | some e =>
      if e = Err.bcryptMismatch then (none, some Err.errInvalidPassword)
      else (none, some e)

/-!
The rand package. crypto/rand.Read is embedded as the parameter randRead: for
a buffer of length n it yields the bytes it wrote into the buffer together
with the error it reported. Bytes are Nat values below 256.
-/

/-- The alphabet of base64.URLEncoding: the 64 URL-safe digit characters. -/
def b64Alphabet : List Char :=
  "ABCDEFGHIJKLMNOPQRSTUVWXYZabcdefghijklmnopqrstuvwxyz0123456789-_".data

/-- The base64 digit character for a 6-bit value. -/
def b64Char (v : Nat) : Char := b64Alphabet.getD v 'A'

/-- The 6-bit value of a base64 digit character, none for a character outside
the alphabet (in particular for the padding character). -/
def b64Val (ch : Char) : Option Nat :=
  let i := b64Alphabet.indexOf ch
  if i < 64 then some i else none

/-- base64.URLEncoding.EncodeToString on a byte sequence: big-endian 6-bit
groups over 3-byte blocks, the final partial block padded with the equals
sign to a multiple of four digits. -/
def encB64 : List Nat → List Char
  | [] => []
  | [b1] => [b64Char (b1 / 4), b64Char (b1 % 4 * 16), '=', '=']
  | [b1, b2] =>
    [b64Char (b1 / 4), b64Char (b1 % 4 * 16 + b2 / 16), b64Char (b2 % 16 * 4), '=']
  | b1 :: b2 :: b3 :: rest =>
    b64Char (b1 / 4) :: b64Char (b1 % 4 * 16 + b2 / 16) ::
      b64Char (b2 % 16 * 4 + b3 / 64) :: b64Char (b3 % 64) :: encB64 rest

/-- base64.URLEncoding decoding of a character sequence: inverse of encB64,
none on any malformed input. -/
def decB64 : List Char → Option (List Nat)
  | [] => some []
  | c1 :: c2 :: c3 :: c4 :: rest =>
    match b64Val c1, b64Val c2 with
    | some v1, some v2 =>
      if c3 = '=' then
        if c4 = '=' ∧ rest = [] then some [v1 * 4 + v2 / 16] else none
      else
        match b64Val c3 with
        | some v3 =>
          if c4 = '=' then
            if rest = [] then some [v1 * 4 + v2 / 16, v2 % 16 * 16 + v3 / 4] else none
          else
            match b64Val c4, decB64 rest with
            | some v4, some bs =>
              some ((v1 * 4 + v2 / 16) :: (v2 % 16 * 16 + v3 / 4) :: (v3 % 4 * 64 + v4) :: bs)
            | _, _ => none
        | none => none
    | _, _ => none
  | _ => none

/-- Number of bytes used to generate tokens: the RememberTokenBytes constant. -/
def Rand.RememberTokenBytes : Nat := 32

/-- rand.Bytes: allocates a zero-filled n-byte buffer, lets crypto/rand.Read
write into it, and returns nil together with the error when the read fails,
the buffer otherwise. -/
def Rand.Bytes (randRead : Nat → List Nat × Option Err) (n : Nat) :
    Option (List Nat) × Option Err :=
  let buf := List.replicate n 0
  let r := randRead n
  let written := r.1.take n
  let buf := written ++ buf.drop written.length
  match r.2 with
  | some e => (none, some e)
  | none => (some buf, none)

/-- A Go string value; named so that signatures written after Rand.String is
declared still denote the builtin string type. -/
abbrev GoString := String

/-- rand.String: returns the empty string together with the error when
rand.Bytes fails, and otherwise the base64 URL encoding of the n bytes. -/
def Rand.String (randRead : Nat → List Nat × Option Err) (n : Nat) :
    GoString × Option Err :=
  match Rand.Bytes randRead n with
  | (_, some e) => ("", some e)
  | (b, none) => (String.mk (encB64 (b.getD [])), none)

/-- rand.RememberToken: generates remember tokens of the predetermined byte
size, exactly rand.String at RememberTokenBytes. -/
def Rand.RememberToken (randRead : Nat → List Nat × Option Err) :
    GoString × Option Err :=
  Rand.String randRead Rand.RememberTokenBytes

/-- A concrete stored user for witnesses: id 1, email al at x, hash H. -/
def u0 : User := { ID := 1, Name := "Al", Email := "al@x", PasswordHash := "H" }

/-- A concrete second user sharing the email of u0, password pw. -/
def u1 : User := { Name := "Bo", Email := "al@x", Password := "pw" }

/-- A concrete comparison outcome function standing for bcrypt: hash H
matches exactly the password pw, any other password mismatches, and a foreign
hash makes the primitive fail. -/
def cmp0 : String → String → Option Err := fun hash pw =>
  if hash = "H" ∧ pw = "pw" then none
  else if hash = "H" then some Err.bcryptMismatch
  else some (Err.backend 3)

/-- A concrete hashing outcome function standing for
bcrypt.GenerateFromPassword: the password long makes the primitive fail, any
other password hashes to bc followed by the password. -/
def gen0 : String → Except Err String := fun pw =>
  if pw = "long" then Except.error (Err.hashErr 1) else Except.ok ("bc" ++ pw)

/-- Every 6-bit value decodes back through the alphabet table, and no digit
character is the padding character. -/
theorem b64_table_sound :
    ∀ v : Fin 64, b64Val (b64Char v.val) = some v.val ∧ b64Char v.val ≠ '=' := by
  decide

theorem b64Val_b64Char {v : Nat} (h : v < 64) : b64Val (b64Char v) = some v :=
  (b64_table_sound ⟨v, h⟩).1

theorem b64Char_ne_pad {v : Nat} (h : v < 64) : b64Char v ≠ '=' :=
  (b64_table_sound ⟨v, h⟩).2

/-- Decoding is a left inverse of encoding on byte sequences. -/
theorem decB64_encB64 : ∀ bs : List Nat, (∀ b ∈ bs, b < 256) →
    decB64 (encB64 bs) = some bs
  | [], _ => rfl
  | [b1], h => by
    have hb1 : b1 < 256 := h b1 (by simp)
    simp only [encB64, decB64, b64Val_b64Char (show b1 / 4 < 64 by omega),
      b64Val_b64Char (show b1 % 4 * 16 < 64 by omega)]
    simp
    omega
  | [b1, b2], h => by
    have hb1 : b1 < 256 := h b1 (by simp)
    have hb2 : b2 < 256 := h b2 (by simp)
    simp only [encB64, decB64, b64Val_b64Char (show b1 / 4 < 64 by omega),
      b64Val_b64Char (show b1 % 4 * 16 + b2 / 16 < 64 by omega),
      b64Val_b64Char (show b2 % 16 * 4 < 64 by omega)]
    rw [if_neg (b64Char_ne_pad (show b2 % 16 * 4 < 64 by omega))]
    simp
    omega
  | b1 :: b2 :: b3 :: rest, h => by
    have hb1 : b1 < 256 := h b1 (by simp)
    have hb2 : b2 < 256 := h b2 (by simp)
    have hb3 : b3 < 256 := h b3 (by simp)
    have ih : decB64 (encB64 rest) = some rest :=
      decB64_encB64 rest (fun b hb => h b (by simp [hb]))
    match rest with
    | [] =>
      simp only [encB64, decB64, b64Val_b64Char (show b1 / 4 < 64 by omega),
        b64Val_b64Char (show b1 % 4 * 16 + b2 / 16 < 64 by omega),
        b64Val_b64Char (show b2 % 16 * 4 + b3 / 64 < 64 by omega),
        b64Val_b64Char (show b3 % 64 < 64 by omega)]
      rw [if_neg (b64Char_ne_pad (show b2 % 16 * 4 + b3 / 64 < 64 by omega)),
        if_neg (b64Char_ne_pad (show b3 % 64 < 64 by omega))]
      simp
      omega
    | r1 :: rrest =>
      simp only [encB64] at ih ⊢
      simp only [decB64, b64Val_b64Char (show b1 / 4 < 64 by omega),
        b64Val_b64Char (show b1 % 4 * 16 + b2 / 16 < 64 by omega),
        b64Val_b64Char (show b2 % 16 * 4 + b3 / 64 < 64 by omega),
        b64Val_b64Char (show b3 % 64 < 64 by omega)]
      rw [if_neg (b64Char_ne_pad (show b2 % 16 * 4 + b3 / 64 < 64 by omega)),
        if_neg (b64Char_ne_pad (show b3 % 64 < 64 by omega))]
      rw [ih]
      simp
      omega

/-- Claim C6: RememberToken is extensionally equal to the general token
operation rand.String instantiated at the fixed 32-byte length, for every
outcome of the entropy source. -/
theorem rememberToken_eq_randomToken32 :
    ∀ randRead : Nat → List Nat × Option Err,
      Rand.RememberToken randRead = Rand.String randRead 32 :=
  fun _ => rfl

/-- Helper: a successful full-length read comes back verbatim from
rand.Bytes. -/
theorem bytes_ok (randRead : Nat → List Nat × Option Err) (n : Nat) (w : List Nat)
    (hread : randRead n = (w, none)) (hlen : w.length = n) :
    Rand.Bytes randRead n = (some w, none) := by
  simp only [Rand.Bytes, hread]
  have htake : w.take n = w := by
    rw [← hlen]
    exact List.take_length w
  simp [htake, hlen, List.drop_eq_nil_of_le]

/-- Helper: a failing read makes rand.Bytes return nil and the error. -/
theorem bytes_fail (randRead : Nat → List Nat × Option Err) (n : Nat) (w : List Nat)
    (e : Err) (hread : randRead n = (w, some e)) :
    Rand.Bytes randRead n = (none, some e) := by
  simp only [Rand.Bytes, hread]

/-- Claim C8: rand.Bytes either returns exactly the n bytes read from the
entropy source, or, when the source reports an error, returns nil together
with that error; it never returns a partially filled or zero-filled buffer as
a success. -/
theorem bytes_all_or_nothing (randRead : Nat → List Nat × Option Err) (n : Nat) :
    (∀ w, randRead n = (w, none) → w.length = n →
       Rand.Bytes randRead n = (some w, none)) ∧
    (∀ w e, randRead n = (w, some e) → Rand.Bytes randRead n = (none, some e)) :=
  ⟨fun w hread hlen => bytes_ok randRead n w hread hlen,
   fun w e hread => bytes_fail randRead n w e hread⟩

/-- Witness for C8 at concrete entropy outcomes: a successful 5-byte read is
returned verbatim, and a failing read with a partially written buffer yields
nil and the source error. -/
theorem bytes_all_or_nothing_witness :
    Rand.Bytes (fun k => (List.range k, none)) 5 = (some (List.range 5), none) ∧
    Rand.Bytes (fun _ => ([1, 2], some (Err.backend 7))) 5 =
      (none, some (Err.backend 7)) := by
  have h1 := bytes_all_or_nothing (fun k => (List.range k, none)) 5
  have h2 := bytes_all_or_nothing (fun _ => ([1, 2], some (Err.backend 7))) 5
  exact ⟨h1.1 (List.range 5) rfl (by decide), h2.2 [1, 2] (Err.backend 7) rfl⟩

/-- Claim C7: on every successful draw, rand.String returns exactly the
URL-safe base64 encoding of the n bytes produced by rand.Bytes, and URL-safe
base64 decoding of the returned token yields exactly those n bytes. -/
theorem token_is_base64url_roundtrip (randRead : Nat → List Nat × Option Err)
    (n : Nat) (w : List Nat) (hread : randRead n = (w, none)) (hlen : w.length = n)
    (hbytes : ∀ b ∈ w, b < 256) :
    Rand.String randRead n = (String.mk (encB64 w), none) ∧
    decB64 (String.mk (encB64 w)).data = some w := by
  have hb := bytes_ok randRead n w hread hlen
  constructor
  · simp [Rand.String, hb]
  · exact decB64_encB64 w hbytes

/-- Witness for C7 at a concrete 32-byte entropy outcome: the token is the
encoding of the 32 drawn bytes and decodes back to exactly those 32 bytes. -/
theorem token_is_base64url_roundtrip_witness :
    (List.range 32).length = 32 ∧
    Rand.String (fun k => (List.range k, none)) 32 =
      (String.mk (encB64 (List.range 32)), none) ∧
    decB64 (String.mk (encB64 (List.range 32))).data = some (List.range 32) := by
  have h := token_is_base64url_roundtrip (fun k => (List.range k, none)) 32
    (List.range 32) rfl (by decide) (by decide)
  exact ⟨by decide, h.1, h.2⟩

/-- Claim C1: Authenticate returns the stored record and nil when the email
exists and the stored hash matches the password; models.ErrInvalidPassword
when the comparison reports a bcrypt mismatch; models.ErrNotFound unchanged
when no user has that email; and any other comparison failure unchanged. -/
theorem authenticate_cases (cmp : String → String → Option Err) (st : Store)
    (email password : String) :
    (∀ u rest, st.filter (fun v => v.Email == email) = u :: rest →
      ((cmp u.PasswordHash password = none →
          UserService.Authenticate cmp none st email password = (some u, none)) ∧
       (cmp u.PasswordHash password = some Err.bcryptMismatch →
          UserService.Authenticate cmp none st email password =
            (none, some Err.errInvalidPassword)) ∧
       (∀ e, cmp u.PasswordHash password = some e → e ≠ Err.bcryptMismatch →
          UserService.Authenticate cmp none st email password = (none, some e)))) ∧
    (st.filter (fun v => v.Email == email) = [] →
      UserService.Authenticate cmp none st email password =
        (none, some Err.errNotFound)) := by
  constructor
  · intro u rest hfil
    have hby : userGorm.ByEmail none st email = (some u, none) := by
      simp [userGorm.ByEmail, first, dbFirst, hfil]
    refine ⟨?_, ?_, ?_⟩
    · intro hc
      simp [UserService.Authenticate, hby, hc]
    · intro hc
      simp [UserService.Authenticate, hby, hc]
    · intro e hc hne
      simp [UserService.Authenticate, hby, hc, hne]
  · intro hfil
    have hby : userGorm.ByEmail none st email = (some User.zero, some Err.errNotFound) := by
      simp [userGorm.ByEmail, first, dbFirst, hfil]
    simp [UserService.Authenticate, hby]

/-- Witness for C1 on a one-user store: correct password succeeds with the
stored record, a mismatching password yields models.ErrInvalidPassword, an
unknown email yields models.ErrNotFound. -/
theorem authenticate_cases_witness :
    UserService.Authenticate cmp0 none [u0] "al@x" "pw" = (some u0, none) ∧
    UserService.Authenticate cmp0 none [u0] "al@x" "zz" =
      (none, some Err.errInvalidPassword) ∧
    UserService.Authenticate cmp0 none [u0] "bob@x" "pw" =
      (none, some Err.errNotFound) := by
  have h1 := authenticate_cases cmp0 [u0] "al@x" "pw"
  have h2 := authenticate_cases cmp0 [u0] "al@x" "zz"
  have h3 := authenticate_cases cmp0 [u0] "bob@x" "pw"
  exact ⟨(h1.1 u0 [] (by decide)).1 (by decide),
    (h2.1 u0 [] (by decide)).2.1 (by decide), h3.2 (by decide)⟩

/-- Claim C2: Create computes the hash from user.Password; on hashing failure
it returns that error with the record untouched; on success it clears
Password, sets PasswordHash and hands exactly that record to the backend
insert, whose outcome it returns unchanged. -/
theorem create_hashes_then_delegates (gen : String → Except Err String)
    (fault : Option Err) (st : Store) (now : Nat) (user : User) :
    (∀ e, gen user.Password = Except.error e →
       userGorm.Create gen fault st now user = (st, user, some e)) ∧
    (∀ h, gen user.Password = Except.ok h →
       ({ user with PasswordHash := h, Password := "" } : User).Password = "" ∧
       ({ user with PasswordHash := h, Password := "" } : User).PasswordHash = h ∧
       userGorm.Create gen fault st now user =
         dbCreate fault st now { user with PasswordHash := h, Password := "" }) := by
  constructor
  · intro e he
    simp [userGorm.Create, he]
  · intro h hh
    exact ⟨rfl, rfl, by simp [userGorm.Create, hh]⟩

/-- Witness for C2: a failing hash surfaces the hashing error with the record
unchanged; a successful hash delegates the mutated record to the insert. -/
theorem create_hashes_then_delegates_witness :
    gen0 "long" = Except.error (Err.hashErr 1) ∧
    userGorm.Create gen0 none [] 9 { User.zero with Password := "long" } =
      ([], { User.zero with Password := "long" }, some (Err.hashErr 1)) ∧
    gen0 "pw" = Except.ok "bcpw" ∧
    userGorm.Create gen0 none [] 9 { User.zero with Password := "pw" } =
      dbCreate none [] 9 { User.zero with Password := "", PasswordHash := "bcpw" } := by
  have hA := create_hashes_then_delegates gen0 none [] 9
    { User.zero with Password := "long" }
  have hB := create_hashes_then_delegates gen0 none [] 9
    { User.zero with Password := "pw" }
  exact ⟨rfl, hA.1 (Err.hashErr 1) rfl, rfl, (hB.2 "bcpw" rfl).2.2⟩

/-- Claim C3: a non-positive identifier is rejected before the backend is
consulted: ByID returns nil and its invalid-argument error whatever the store
state or backend fault, and Delete returns models.ErrInvalidID likewise. -/
theorem nonpositive_id_rejected (fault : Option Err) (st : Store) (id : Nat)
    (h : id ≤ 0) :
    userGorm.ByID fault st id = (none, some Err.invalidIDAdhoc) ∧
    Err.kind Err.invalidIDAdhoc = ErrKind.invalidArgument ∧
    userGorm.Delete fault st id = (st, some Err.errInvalidID) ∧
    Err.kind Err.errInvalidID = ErrKind.invalidArgument := by
  have h0 : id = 0 := Nat.le_zero.mp h
  subst h0
  exact ⟨by simp [userGorm.ByID], rfl, by simp [userGorm.Delete], rfl⟩

/-- Witness for C3 at id zero with a faulty backend and a nonempty store:
both rejections are independent of the backend. -/
theorem nonpositive_id_rejected_witness :
    (0 : Nat) ≤ 0 ∧
    userGorm.ByID (some (Err.backend 9)) [u0] 0 = (none, some Err.invalidIDAdhoc) ∧
    userGorm.Delete (some (Err.backend 9)) [u0] 0 = ([u0], some Err.errInvalidID) := by
  have h := nonpositive_id_rejected (some (Err.backend 9)) [u0] 0 (by decide)
  exact ⟨by decide, h.1, h.2.2.1⟩

/-- Claim C4: with the hashing step succeeding, Create against a store that
already holds the email fails with the driver's unique-violation error, which
classifies as a constraint violation and differs from every generic backend
error; any other persistence failure is returned as that failure. -/
theorem create_duplicate_email_distinguishable (gen : String → Except Err String)
    (st : Store) (now : Nat) (user : User) (h : String)
    (hgen : gen user.Password = Except.ok h) :
    (st.any (fun v => v.Email == user.Email) = true →
       (userGorm.Create gen none st now user).2.2 = some Err.uniqueViolation ∧
       Err.kind Err.uniqueViolation = ErrKind.constraintViolation ∧
       ∀ c, Err.uniqueViolation ≠ Err.backend c) ∧
    (∀ e, (userGorm.Create gen (some e) st now user).2.2 = some e) := by
  constructor
  · intro hdup
    refine ⟨?_, rfl, fun c => by simp⟩
    simp [userGorm.Create, hgen, dbCreate, hdup]
  · intro e
    simp [userGorm.Create, hgen, dbCreate]

/-- Witness for C4: inserting u1, whose email equals that of the stored u0,
fails with the unique-violation error; an injected backend fault is returned
unchanged. -/
theorem create_duplicate_email_distinguishable_witness :
    gen0 u1.Password = Except.ok "bcpw" ∧
    ([u0] : Store).any (fun v => v.Email == u1.Email) = true ∧
    (userGorm.Create gen0 none [u0] 9 u1).2.2 = some Err.uniqueViolation ∧
    (userGorm.Create gen0 (some (Err.backend 4)) [u0] 9 u1).2.2 =
      some (Err.backend 4) := by
  have h := create_duplicate_email_distinguishable gen0 [u0] 9 u1 "bcpw" rfl
  exact ⟨rfl, by decide, (h.1 (by decide)).1, h.2 (Err.backend 4)⟩

/-- Claim C5 counterexample: updating a record whose identifier is absent
from the store (id 1 against an empty store) reports a nil error, instead of
failing with the NotFound kind. -/
theorem update_missing_id_reports_success :
    (userGorm.Update none [] 5 { User.zero with ID := 1, Name := "n" }).2 = none := by
  simp [userGorm.Update, dbSave]

/-- Claim C5 (amended): Update hands the record to the backend save and
returns its outcome unchanged: any persistence failure is propagated as that
failure; when the identifier exists, every row carrying it is replaced by the
given record (all mutable fields persisted); but an identifier that no longer
exists is not an error: the save falls back to inserting the record and
Update reports success rather than NotFound. -/
theorem update_propagates_save (fault : Option Err) (st : Store) (now : Nat)
    (user : User) :
    (∀ e, fault = some e → userGorm.Update fault st now user = (st, some e)) ∧
    (fault = none → user.ID ≠ 0 → st.any (fun v => v.ID == user.ID) = true →
       userGorm.Update fault st now user =
         (st.map (fun v => if v.ID = user.ID then { user with UpdatedAt := now } else v),
          none)) ∧
    (fault = none → user.ID ≠ 0 → st.any (fun v => v.ID == user.ID) = false →
       userGorm.Update fault st now user =
         (st ++ [{ user with CreatedAt := now, UpdatedAt := now }], none)) := by
  refine ⟨?_, ?_, ?_⟩
  · intro e he
    simp [userGorm.Update, dbSave, he]
  · intro hf hid hmem
    subst hf
    simp [userGorm.Update, dbSave, hid, hmem]
  · intro hf hid hmem
    subst hf
    simp [userGorm.Update, dbSave, hid, hmem]

/-- Witness for C5: a backend fault is propagated; saving a renamed u0
replaces the stored row; saving under an absent identifier succeeds by
inserting the record. -/
theorem update_propagates_save_witness :
    userGorm.Update (some (Err.backend 2)) [u0] 9 u0 = ([u0], some (Err.backend 2)) ∧
    userGorm.Update none [u0] 9 { u0 with Name := "Z" } =
      ([{ u0 with Name := "Z", UpdatedAt := 9 }], none) ∧
    userGorm.Update none [u0] 9 { u0 with ID := 3 } =
      ([u0, { u0 with ID := 3, CreatedAt := 9, UpdatedAt := 9 }], none) := by
  have h1 := update_propagates_save (some (Err.backend 2)) [u0] 9 u0
  have h2 := update_propagates_save none [u0] 9 { u0 with Name := "Z" }
  have h3 := update_propagates_save none [u0] 9 { u0 with ID := 3 }
  refine ⟨h1.1 (Err.backend 2) rfl, ?_, ?_⟩
  · exact (h2.2.1 rfl (by decide) (by decide)).trans (by decide)
  · exact (h3.2.2 rfl (by decide) (by decide)).trans (by decide)

/-- Claim C9: on every error path ByEmail hands back a non-nil pointer to the
zero-valued User record next to the error, while ByID hands back a nil record
pointer on every error path. -/
theorem lookup_error_record_disagree (fault : Option Err) (st : Store)
    (email : String) (id : Nat) :
    (∀ e, (userGorm.ByEmail fault st email).2 = some e →
       (userGorm.ByEmail fault st email).1 = some User.zero) ∧
    (∀ e, (userGorm.ByID fault st id).2 = some e →
       (userGorm.ByID fault st id).1 = none) := by
  constructor
  · intro e he
    cases fault with
    | some f =>
      simp only [userGorm.ByEmail, first, dbFirst]
      split <;> rfl
    | none =>
      cases hrows : st.filter (fun v => v.Email == email) with
      | nil => simp [userGorm.ByEmail, first, dbFirst, hrows]
      | cons u rest =>
        exfalso
        simp [userGorm.ByEmail, first, dbFirst, hrows] at he
  · intro e he
    by_cases hid : id ≤ 0
    · simp [userGorm.ByID, hid]
    · simp only [userGorm.ByID, if_neg hid] at he ⊢
      cases hfr : (first fault (st.filter (fun v => v.ID == id))).2 with
      | none => simp [hfr] at he
      | some f => simp [hfr]

/-- Witness for C9 on an empty store: both lookups fail with
models.ErrNotFound, ByEmail with a pointer to the zero record, ByID with
nil. -/
theorem lookup_error_record_disagree_witness :
    (userGorm.ByEmail none [] "al@x").2 = some Err.errNotFound ∧
    (userGorm.ByEmail none [] "al@x").1 = some User.zero ∧
    (userGorm.ByID none [] 1).2 = some Err.errNotFound ∧
    (userGorm.ByID none [] 1).1 = none := by
  have h := lookup_error_record_disagree none [] "al@x" 1
  exact ⟨by decide, h.1 Err.errNotFound (by decide), by decide,
    h.2 Err.errNotFound (by decide)⟩

/-- Claim C10: Create is not atomic on the passed record: once hashing
succeeds, the record it hands back has Password cleared and PasswordHash
overwritten even on every failing insert outcome. -/
theorem create_mutates_before_insert (gen : String → Except Err String)
    (fault : Option Err) (st : Store) (now : Nat) (user : User) (h : String)
    (hgen : gen user.Password = Except.ok h) :
    ∀ e, (userGorm.Create gen fault st now user).2.2 = some e →
      (userGorm.Create gen fault st now user).2.1.Password = "" ∧
      (userGorm.Create gen fault st now user).2.1.PasswordHash = h := by
  intro e he
  cases fault with
  | some f => simp [userGorm.Create, hgen, dbCreate]
  | none =>
    by_cases hdup : (st.any fun v => v.Email == user.Email) = true
    · simp [userGorm.Create, hgen, dbCreate, hdup]
    · exfalso
      simp [userGorm.Create, hgen, dbCreate, hdup] at he

/-- Witness for C10: with a failing insert, the record handed back by Create
already has its password cleared and its hash set. -/
theorem create_mutates_before_insert_witness :
    gen0 "pw" = Except.ok "bcpw" ∧
    (userGorm.Create gen0 (some (Err.backend 4)) [] 9
        { User.zero with Password := "pw" }).2.2 = some (Err.backend 4) ∧
    (userGorm.Create gen0 (some (Err.backend 4)) [] 9
        { User.zero with Password := "pw" }).2.1.Password = "" ∧
    (userGorm.Create gen0 (some (Err.backend 4)) [] 9
        { User.zero with Password := "pw" }).2.1.PasswordHash = "bcpw" := by
  have h := create_mutates_before_insert gen0 (some (Err.backend 4)) [] 9
    { User.zero with Password := "pw" } "bcpw" rfl
  have h2 := h (Err.backend 4) rfl
  exact ⟨rfl, rfl, h2.1, h2.2⟩
